import Mathlib

/-!
# Verification of the cheddar_database reporting scripts

Shallow embedding of the three Python scripts of the repository:

* `analyze_firebase_data.py` — class `FirebaseAnalyzer` (namespace `FA` below);
* `cheddar_activity_analyzer.py` — class `CheddarAnalyzer` (namespace `CA` below);
* `cheddar_4week_weight.py` — function `calculate_onboarding_days` (namespace `W4` below).

Modelling conventions:

* A Python `datetime.date` is embedded as its proleptic-Gregorian ordinal
  (an integer, `0001-01-01 ↦ 1`), exactly Python's `date.toordinal()`.
  `rataDie` and `civilFromDays` are the two conversions; they were calibrated
  against CPython (`date(1,1,1) = 1`, `date(1970,1,1) = 719163`,
  `date(2025,3,31) = 739341`, `date(250,11,5) = 91254`).
* A Python `str` is a Lean `String`; slicing `s[-8:]`, `s[a:b]` is embedded on
  the character list `s.data` (Python slices never raise; `drop`/`take`
  reproduce the clamping behaviour).
* `int(s)` is embedded by `pyDigits?`, covering plain ASCII digit strings and
  returning `none` otherwise.  CPython additionally strips whitespace and
  accepts signs, underscores and non-ASCII digits; those exotic forms are out
  of modelled scope (no claim depends on them, and on the signed forms the
  observable result of the date decoders is unchanged: a negative year is
  rejected by `datetime.date` just as the model rejects the sign character).
* `datetime.date.fromisoformat` (CPython 3.11) applied to the strings the
  code builds — always of the shape `t[0:4] ++ "-" ++ t[4:6] ++ "-" ++ t[6:8]`
  — succeeds exactly on canonical zero-padded `YYYY-MM-DD`; `iso10?` embeds
  that (no other ISO-8601 form is reachable from strings of this shape).
* Python floats are embedded as exact rationals `ℚ`; every literal the claims
  mention (`63.5`, `-5`, `0`, `1.0`) is exactly representable, and the only
  float operations the code performs are comparison with zero, `float(...)`
  widening, and one-decimal formatting (`fmt1`, round-half-to-even).
* Python dicts that the code only reads are embedded as functions
  (`dict.get(k, default)` semantics); dicts the code builds are embedded as
  association lists with `dictInsert` (replace-if-present, else append —
  Python's insertion-ordered dict update).
* Python sets of dates are embedded as `Finset ℤ`.
* A Firestore query (`.stream()` / `.get()`) either raises or returns its
  documents; it is embedded as `Except String α`.  Code wrapped in
  `try/except` maps `Except.error` to its fallback value; code without a
  handler propagates the `Except.error` (the run aborts).
* `datetime.datetime.now()` is embedded as `PyNow`: the ordinal of the
  current date together with the rendered `%H:%M:%S` time-of-day string
  (the only uses of the time component are `.date()` and `strftime`).
-/

/-! ## Calendar core -/

/-- Gregorian leap year, as `calendar.isleap` / `datetime` use it. -/
def isLeap (y : ℕ) : Bool := y % 4 == 0 && (y % 100 != 0 || y % 400 == 0)

/-- Number of days in month `m` of year `y`. -/
def daysInMonth (y m : ℕ) : ℕ :=
  if m = 2 then (if isLeap y then 29 else 28)
  else if m = 4 ∨ m = 6 ∨ m = 9 ∨ m = 11 then 30
  else 31

/-- The triples `(y, m, d)` accepted by the `datetime.date` constructor
(`MINYEAR = 1`, `MAXYEAR = 9999`). -/
def isValidDate (y m d : ℕ) : Bool :=
  1 ≤ y && y ≤ 9999 && 1 ≤ m && m ≤ 12 && 1 ≤ d && d ≤ daysInMonth y m

/-- Proleptic-Gregorian ordinal of a valid `(y, m, d)`: Python's
`date(y, m, d).toordinal()` (`0001-01-01 ↦ 1`). -/
def rataDie (y m d : ℕ) : ℤ :=
  let y2 := if m ≤ 2 then y - 1 else y
  let era := y2 / 400
  let yoe := y2 % 400
  let mp := (m + 9) % 12
  let doy := (153 * mp + 2) / 5 + (d - 1)
  let doe := yoe * 365 + yoe / 4 - yoe / 100 + doy
  (era * 146097 + doe : ℤ) - 305

/-- Inverse of `rataDie`: the `(y, m, d)` components of an ordinal
(Python's `date.fromordinal`). -/
def civilFromDays (z : ℤ) : ℕ × ℕ × ℕ :=
  let n := (z + 305).toNat
  let era := n / 146097
  let doe := n % 146097
  let yoe := (doe - doe / 1460 + doe / 36524 - doe / 146096) / 365
  let doy := doe - (365 * yoe + yoe / 4 - yoe / 100)
  let mp := (5 * doy + 2) / 153
  let d := doy - (153 * mp + 2) / 5 + 1
  let m := if mp < 10 then mp + 3 else mp - 9
  let y := yoe + era * 400 + (if m ≤ 2 then 1 else 0)
  (y, m, d)

/-- `str(n)` left-padded with zeros to width `w`. -/
def padNum (w n : ℕ) : String :=
  let s := toString n
  (String.join (List.replicate (w - s.length) "0")) ++ s

/-- `date.strftime('%Y-%m-%d')` = `date.isoformat()` = `str(date)` on an
ordinal: fixed `YYYY-MM-DD` textual form. -/
def formatDate (z : ℤ) : String :=
  let c := civilFromDays z
  padNum 4 c.1 ++ "-" ++ padNum 2 c.2.1 ++ "-" ++ padNum 2 c.2.2

/-- Python's `date.weekday()` on an ordinal: `0 = Monday … 6 = Sunday`
(ordinal 1, `0001-01-01`, is a Monday). -/
def weekdayOf (d : ℤ) : ℕ := ((d - 1) % 7).toNat

/-! ## Python value and string primitives -/

/-- The Firestore field values the scripts can observe.  `bool` is kept as a
separate constructor, but note that in Python `bool` is a subclass of `int`,
which `pyIsNumber` / `pyGtZero` / `pyFloat` reproduce. -/
inductive PyVal where
  | int : ℤ → PyVal
  | float : ℚ → PyVal
  | bool : Bool → PyVal
  | str : String → PyVal
  | none : PyVal
deriving DecidableEq

/-- `isinstance(v, (int, float))` — `True` also for `bool` values, because
Python's `bool` is a subclass of `int`. -/
def pyIsNumber : PyVal → Bool
  | .int _ => true
  | .float _ => true
  | .bool _ => true
  | _ => false

/-- `v > 0` for the values accepted by `pyIsNumber` (`True > 0` holds,
`False > 0` does not); `false` elsewhere (never consulted there). -/
def pyGtZero : PyVal → Bool
  | .int n => 0 < n
  | .float q => 0 < q
  | .bool b => b
  | _ => false

/-- `float(v)` on the values accepted by `pyIsNumber`. -/
def pyFloat : PyVal → ℚ
  | .int n => (n : ℚ)
  | .float q => q
  | .bool b => if b then 1 else 0
  | _ => 0

/-- `s[-8:]` as a character list: the last eight characters, or all of them
when the string is shorter. -/
def tail8 (s : String) : List Char := s.data.drop (s.data.length - 8)

/-- `l[a:b]` on a character list (Python slice clamping). -/
def sliceChars (l : List Char) (a b : ℕ) : List Char := (l.drop a).take (b - a)

/-- Numeric value of an ASCII digit. -/
def digitVal (c : Char) : ℕ := c.toNat - 48

/-- `int(s)` on a character list, for plain ASCII digit strings;
`none` (a `ValueError` in Python) otherwise.  See the header for the
out-of-scope exotic `int()` forms. -/
def pyDigits? (l : List Char) : Option ℕ :=
  if l ≠ [] ∧ l.all Char.isDigit then
    some (l.foldl (fun n c => 10 * n + digitVal c) 0)
  else Option.none

/-- `email.split('@')[0]`: the local part of an identifier — every
character before the first `@`, or the whole identifier when it contains
no `@`. -/
def localPart (s : String) : String := ⟨s.data.takeWhile (fun c => c != '@')⟩

/-- Round a rational to the nearest integer, ties to even — the rounding of
Python's fixed-point formatting. -/
def roundHalfEven (q : ℚ) : ℤ :=
  let f := ⌊q⌋
  let frac := q - f
  if frac < 1 / 2 then f
  else if 1 / 2 < frac then f + 1
  else if f % 2 = 0 then f else f + 1

/-- `f"{q:.1f}"`: one-decimal fixed-point rendering. -/
def fmt1 (q : ℚ) : String :=
  let n := roundHalfEven (q * 10)
  let a := n.natAbs
  (if n < 0 then "-" else "") ++ toString (a / 10) ++ "." ++ toString (a % 10)

/-! ## Association lists (Python dicts built by the code) -/

/-- First-match lookup in an association list (`dict.__getitem__` /
`dict.get`). -/
def alistGet {α β : Type} [DecidableEq α] (k : α) : List (α × β) → Option β
  | [] => Option.none
  | (a, b) :: rest => if a = k then some b else alistGet k rest

/-- `dict[k] = v`: replace the binding if the key is present, else append
(insertion-ordered dict update). -/
def dictInsert {α β : Type} [DecidableEq α] (l : List (α × β)) (k : α) (v : β) :
    List (α × β) :=
  match alistGet k l with
  | Option.none => l ++ [(k, v)]
  | some _ => l.map (fun p => if p.1 = k then (k, v) else p)

/-! ## The opaque document store -/

/-- `collection('patient').document(email).get()` result: whether the
document exists, its optional `name` field, and the date component of its
creation timestamp.  (Only these three observations are made by the code;
a non-string `name` value or the timestamp's time-of-day are unobservable
in the modelled scripts.) -/
structure PatientDoc where
  present : Bool
  name : Option String
  create_time : Option ℤ
deriving DecidableEq

/-- One streamed session sub-collection document: its identifier and its
`to_dict()` field mapping. -/
structure SDoc where
  id : String
  data : List (String × PyVal)
deriving DecidableEq

/-- The external store, per user identifier.  Each query either raises
(`Except.error`, carrying the exception message) or yields its documents. -/
structure Store where
  patient : String → Except String PatientDoc
  cheddar : String → Except String (List SDoc)
  meal : String → Except String (List SDoc)
  weekly : String → Except String (List SDoc)

/-! ## `analyze_firebase_data.py` — class `FirebaseAnalyzer` -/

namespace FA

/-- The analyzer's configured state: `self.user_emails` and
`self.notification_exclude_list`. -/
structure FAState where
  user_emails : List String
  notification_exclude_list : List String

/-- The hard-coded `self.notification_exclude_list` of `__init__`. -/
def notification_exclude_list : List String :=
  ["lsm040117@gmail.com", "qqyer6953@naver.com", "heb75707@gmail.com",
   "eg13111@gmail.com", "a01093053968@gmail.com", "chgml080925@hanmail.net",
   "01076833914@naver.com"]

/-- The hard-coded `self.user_emails` roster of `__init__`. -/
def user_emails : List String :=
  ["lsm040117@gmail.com", "ddocdk77@gmail.com", "qqyer6953@naver.com",
   "wonhyeonseo62@gmail.com", "asnox07@naver.com", "081212hy@gmail.con",
   "elprup135@gmail.com", "tlsworua821@gmail.com", "ijeongyeon199@gmail.com",
   "cjh060914@gmail.com", "a01056848676@gmail.com", "ppulyon9@gmail.com",
   "heb75707@gmail.com", "eg13111@gmail.com", "namgiseong8@gmail.com",
   "aa01094102563@gmail.com", "a01093053968@gmail.com", "juhyen1221@naver.com",
   "jedidiah0219@gmail.com", "chgml080925@hanmail.net", "bugae48@gmail.com",
   "qkrgkdus6104@gmail.com", "park21770420@icloud.com", "55413175a@gmail.com",
   "amchiyongjh@gmail.com", "haerinshin@naver.com", "imsarang4825@gmail.com",
   "01086506058@naver.com", "kimjiho1079@naver.com", "01082792251@naver.com",
   "two0329@naver.com", "01076833914@naver.com", "imsohui541@gmail.com",
   "aaaaaa101@naver.com", "kcho19863@gmail.com", "boram7387@naver.com",
   "jinnalim97@gmail.com", "moonqw04@naver.com", "leedh4614@nate.com",
   "parkyeseo8209@gmail.com", "mttyuiopasd@gmail.com", "bluecandy08@naver.com",
   "thihongdiemle3@gmail.com", "abs123123123123@gmail.com",
   "ehrbs1015@gmail.com", "swnike36@gmail.com", "gpqk1009@gmail.com",
   "gudowon01@gmail.com", "jiangel79ki1024@gmail.com",
   "monhohyeon080306@gmail.com"]

/-- The analyzer state built by `__init__`. -/
def initState : FAState := ⟨user_emails, notification_exclude_list⟩

/-- `extract_date_from_document_id`: take `doc_id[-8:]`, parse slices
`[:4]`, `[4:6]`, `[6:8]` with `int(...)`, build `datetime.date`;
`None` on `ValueError`/`IndexError`.  Note there is no length guard: a
shorter identifier yields shorter slices, which may still parse. -/
def extract_date_from_document_id (s : String) : Option ℤ :=
  let t := tail8 s
  match pyDigits? (sliceChars t 0 4), pyDigits? (sliceChars t 4 6),
      pyDigits? (sliceChars t 6 8) with
  | some y, some m, some d =>
      if isValidDate y m d then some (rataDie y m d) else Option.none
  | _, _, _ => Option.none

/-- `get_user_name`: the patient document's `name` field when the document
exists and carries one, else the email's local part; the same fallback on a
raised lookup (caught and logged). -/
def get_user_name (res : Except String PatientDoc) (email : String) : String :=
  match res with
  | .error _ => localPart email
  | .ok doc =>
      if doc.present then
        match doc.name with
        | some n => n
        | Option.none => localPart email
      else localPart email

/-- `get_user_registration_date`: the creation date when the document exists
and has a (truthy) `create_time`, else `None`; `None` on a raised lookup
(caught and logged). -/
def get_user_registration_date (res : Except String PatientDoc) : Option ℤ :=
  match res with
  | .error _ => Option.none
  | .ok doc => if doc.present then doc.create_time else Option.none

/-- Accumulation step of the date-set fetchers: add the decoded document
date, if any. -/
def dateStep (s : Finset ℤ) (doc : SDoc) : Finset ℤ :=
  match extract_date_from_document_id doc.id with
  | some d => insert d s
  | Option.none => s

/-- `get_cheddar_conversation_dates`: union of the decodable document dates;
the empty set on a raised query (caught and logged). -/
def get_cheddar_conversation_dates (res : Except String (List SDoc)) : Finset ℤ :=
  match res with
  | .error _ => ∅
  | .ok docs => docs.foldl dateStep ∅

/-- `get_meal_tracking_dates`: same reduction over the `meal_tracking`
sub-collection; the empty set on a raised query (caught and logged). -/
def get_meal_tracking_dates (res : Except String (List SDoc)) : Finset ℤ :=
  match res with
  | .error _ => ∅
  | .ok docs => docs.foldl dateStep ∅

/-- Per-document step of `get_weight_data`: if the identifier decodes and the
document's `weight` field is numeric (`isinstance(w, (int, float))`) and
strictly positive, record `date ↦ float(w)` (dict update, last write wins). -/
def weightStep (acc : List (ℤ × ℚ)) (doc : SDoc) : List (ℤ × ℚ) :=
  match extract_date_from_document_id doc.id with
  | Option.none => acc
  | some d =>
      match alistGet "weight" doc.data with
      | Option.none => acc
      | some w =>
          if pyIsNumber w && pyGtZero w then dictInsert acc d (pyFloat w)
          else acc

/-- `get_weight_data`: the date → weight mapping of the filtered documents;
the empty mapping on a raised query (caught and logged). -/
def get_weight_data (res : Except String (List SDoc)) : List (ℤ × ℚ) :=
  match res with
  | .error _ => []
  | .ok docs => docs.foldl weightStep []

/-- The five accumulating dictionaries of `analyze_all_users`. -/
structure FAResult where
  cheddar : List (String × Finset ℤ)
  meal : List (String × Finset ℤ)
  weights : List (String × List (ℤ × ℚ))
  names : List (String × String)
  regs : List (String × Option ℤ)

/-- The empty accumulators. -/
def emptyFAResult : FAResult := ⟨[], [], [], [], []⟩

/-- One iteration of the `analyze_all_users` loop for a single email. -/
def analyzeStep (store : Store) (acc : FAResult) (email : String) : FAResult :=
  { cheddar := dictInsert acc.cheddar email
      (get_cheddar_conversation_dates (store.cheddar email))
    meal := dictInsert acc.meal email
      (get_meal_tracking_dates (store.meal email))
    weights := dictInsert acc.weights email
      (get_weight_data (store.weekly email))
    names := dictInsert acc.names email
      (get_user_name (store.patient email) email)
    regs := dictInsert acc.regs email
      (get_user_registration_date (store.patient email)) }

/-- `analyze_all_users`: iterate the roster in order, filling all five
dictionaries; a failed query degrades to the empty/default value for that
user and field only. -/
def analyze_all_users (store : Store) (emails : List String) : FAResult :=
  emails.foldl (analyzeStep store) emptyFAResult

end FA

/-! ## `cheddar_activity_analyzer.py` — class `CheddarAnalyzer` -/

namespace CA

/-- The `Activity` enum; its declaration (and hence iteration) order is
`CHEDDAR`, `MEAL`. -/
inductive Activity where
  | CHEDDAR
  | MEAL
deriving DecidableEq

/-- `Activity.value`: the single-letter grid marker. -/
def Activity.value : Activity → String
  | .CHEDDAR => "C"
  | .MEAL => "M"

/-- Iteration order of `for act in Activity`. -/
def activityOrder : List Activity := [.CHEDDAR, .MEAL]

/-- `_extract_date` builds `f"{tail[0:4]}-{tail[4:6]}-{tail[6:8]}"` from
`tail = doc_id[-8:]` and hands it to `date.fromisoformat`; `iso10?` is that
parser on the reachable shapes: it succeeds exactly on canonical zero-padded
`YYYY-MM-DD` strings naming a valid calendar date. -/
def iso10? (l : List Char) : Option ℤ :=
  match l with
  | [y1, y2, y3, y4, h1, m1, m2, h2, d1, d2] =>
      if y1.isDigit && y2.isDigit && y3.isDigit && y4.isDigit && h1 == '-' &&
          m1.isDigit && m2.isDigit && h2 == '-' && d1.isDigit && d2.isDigit then
        let y := digitVal y1 * 1000 + digitVal y2 * 100 + digitVal y3 * 10 + digitVal y4
        let m := digitVal m1 * 10 + digitVal m2
        let d := digitVal d1 * 10 + digitVal d2
        if isValidDate y m d then some (rataDie y m d) else Option.none
      else Option.none
  | _ => Option.none

/-- `_extract_date`: `None` (a caught `ValueError`) unless the tail is a
well-formed `YYYYMMDD` naming a valid date. -/
def extract_date (s : String) : Option ℤ :=
  let t := tail8 s
  iso10? (sliceChars t 0 4 ++ '-' :: (sliceChars t 4 6 ++ '-' :: sliceChars t 6 8))

/-- `_lookup_patient_name`: no exception handler — a raised lookup
propagates; otherwise the `name` field (when the document exists and its
dict is truthy and carries `name`) or the email's local part. -/
def lookup_patient_name (res : Except String PatientDoc) (email : String) :
    Except String String :=
  match res with
  | .error e => .error e
  | .ok doc =>
      .ok (if doc.present then
        match doc.name with
        | some n => n
        | Option.none => localPart email
      else localPart email)

/-- Accumulation step of `_fetch_dates`. -/
def caDateStep (s : Finset ℤ) (doc : SDoc) : Finset ℤ :=
  match extract_date doc.id with
  | some d => insert d s
  | Option.none => s

/-- `_fetch_dates`: no exception handler — a raised stream propagates. -/
def fetch_dates (res : Except String (List SDoc)) : Except String (Finset ℤ) :=
  match res with
  | .error e => .error e
  | .ok docs => .ok (docs.foldl caDateStep ∅)

/-- Per-document step of `_fetch_weights` (`data.get("weight")`, same
`isinstance`/`> 0` filter as `FA.weightStep`, but with `_extract_date`). -/
def caWeightStep (acc : List (ℤ × ℚ)) (doc : SDoc) : List (ℤ × ℚ) :=
  match extract_date doc.id with
  | Option.none => acc
  | some d =>
      match alistGet "weight" doc.data with
      | Option.none => acc
      | some w =>
          if pyIsNumber w && pyGtZero w then dictInsert acc d (pyFloat w)
          else acc

/-- `_fetch_weights`: no exception handler — a raised stream propagates. -/
def fetch_weights (res : Except String (List SDoc)) : Except String (List (ℤ × ℚ)) :=
  match res with
  | .error e => .error e
  | .ok docs => .ok (docs.foldl caWeightStep [])

/-- The tensors built by `_collect_all_users` (the two activity matrices,
the weight timelines, the names). -/
structure CAResult where
  cheddarM : List (String × Finset ℤ)
  mealM : List (String × Finset ℤ)
  weights : List (String × List (ℤ × ℚ))
  names : List (String × String)

/-- The empty tensors. -/
def emptyCAResult : CAResult := ⟨[], [], [], []⟩

/-- `_collect_all_users`: iterate `cfg.emails` in order; any raised query
propagates (there is no handler), aborting the whole run. -/
def collect_all_users (store : Store) : List String → CAResult → Except String CAResult
  | [], acc => .ok acc
  | email :: rest, acc =>
      match lookup_patient_name (store.patient email) email with
      | .error e => .error e
      | .ok nm =>
          match fetch_dates (store.cheddar email) with
          | .error e => .error e
          | .ok cd =>
              match fetch_dates (store.meal email) with
              | .error e => .error e
              | .ok md =>
                  match fetch_weights (store.weekly email) with
                  | .error e => .error e
                  | .ok wd =>
                      collect_all_users store rest
                        { cheddarM := dictInsert acc.cheddarM email cd
                          mealM := dictInsert acc.mealM email md
                          weights := dictInsert acc.weights email wd
                          names := dictInsert acc.names email nm }

/-- `daterange(start, end)`: the closed range `[start, end]`, step one day
(`[start + timedelta(days=i) for i in range((end - start).days + 1)]`). -/
def daterange (s e : ℤ) : List ℤ :=
  (List.range (e - s + 1).toNat).map (fun (i : ℕ) => s + (i : ℤ))

end CA

/-! ## Renderers -/

/-- `datetime.datetime.now()` as observed by the code: the ordinal of
`now.date()` and the `%H:%M:%S` time-of-day string. -/
structure PyNow where
  date : ℤ
  hms : String

namespace FA

/-- Hard-coded report range start, `datetime.date(2025, 3, 31)`. -/
def start_date : ℤ := rataDie 2025 3 31

/-- Iterations of the `while current_date <= end_date` loop, counted out:
`n` more days starting at `s`. -/
def buildDatesAux : ℕ → ℤ → List ℤ
  | 0, _ => []
  | n + 1, s => s :: buildDatesAux n (s + 1)

/-- The `while current_date <= end_date` loop of `generate_markdown_table`
and `save_to_excel`: all dates from `s` to `e` inclusive (the loop runs
exactly `max 0 (e - s + 1)` times; `buildDates_unfold` below re-derives the
loop-shaped recurrence). -/
def buildDates (s e : ℤ) : List ℤ := buildDatesAux (e + 1 - s).toNat s

/-- `sorted(all_dates)` (already ascending, so a stable sort returns it
unchanged; on a linearly ordered type any sorted permutation is unique). -/
def sortedDates (s e : ℤ) : List ℤ :=
  List.insertionSort (· ≤ ·) (buildDates s e)

/-- `user_names.get(email, email.split('@')[0])`. -/
def nameDisp (names : String → Option String) (email : String) : String :=
  (names email).getD (localPart email)

/-- `registration_dates.get(email, "없음")` rendered into a row: a date
prints as `YYYY-MM-DD`, a stored `None` prints as `"None"` (`str(None)`),
an absent key as the default `"없음"`.  (Lines 327–328 interpolate the raw
value; lines 493–495 `strftime` the date case — the rendered text is the
same.) -/
def regDisplay (r : Option (Option ℤ)) : String :=
  match r with
  | Option.none => "없음"
  | some Option.none => "None"
  | some (some d) => formatDate d

/-- `max(s)` of a set of dates, `None` when empty (the code always guards
the empty case). -/
def finsetLatest (s : Finset ℤ) : Option ℤ :=
  if h : s.Nonempty then some (s.max' h) else Option.none

/-- `latest.strftime('%Y-%m-%d') if latest else "없음"`. -/
def latestDisp (s : Finset ℤ) : String :=
  match finsetLatest s with
  | some d => formatDate d
  | Option.none => "없음"

/-- One grid cell of the Markdown activity table (lines 331–342): `"C"` and
`"M"` markers concatenated, then — when the weight value is truthy — the
` (X.Xkg)` annotation. -/
def mdCell (cheddar meal : String → Finset ℤ) (weights : String → List (ℤ × ℚ))
    (email : String) (d : ℤ) : String :=
  let c0 := (if d ∈ cheddar email then "C" else "") ++
    (if d ∈ meal email then "M" else "")
  match alistGet d (weights email) with
  | some w => if w ≠ 0 then c0 ++ " (" ++ fmt1 w ++ "kg)" else c0
  | Option.none => c0

/-- One user row of the Markdown activity grid (lines 324–344). -/
def mdUserRow (cheddar meal : String → Finset ℤ) (weights : String → List (ℤ × ℚ))
    (names : String → Option String) (regs : String → Option (Option ℤ))
    (dates : List ℤ) (email : String) : String :=
  let emailDisp := localPart email
  let nm := nameDisp names email
  "| " ++ nm ++ " | " ++ emailDisp ++ " | " ++ regDisplay (regs email) ++ " |" ++
    String.join (dates.map (fun d =>
      " " ++ mdCell cheddar meal weights email d ++ " |")) ++
    " " ++ nm ++ " |\n"

/-- The per-user weight history section for one user (lines 356–372). -/
def weightHistory (weights : String → List (ℤ × ℚ))
    (names : String → Option String) (email : String) : String :=
  let wd := weights email
  if wd ≠ [] then
    "### " ++ nameDisp names email ++ "의 체중 기록\n\n" ++
    "| 날짜 | 체중(kg) |\n" ++ "|---|---:|\n" ++
    String.join ((List.insertionSort (fun a b => b ≤ a) (wd.map Prod.fst)).map
      (fun d =>
        "| " ++ formatDate d ++ " | " ++
          fmt1 ((alistGet d wd).getD 0) ++ " |\n")) ++
    "\n"
  else ""

/-- One of the three recent-usage blocks (today / yesterday / two days ago,
lines 380–440): users with a conversation or meal record on `refDate`, or a
placeholder row. -/
def recentBlock (cheddar meal : String → Finset ℤ) (names : String → Option String)
    (emails : List String) (refDate : ℤ) (title emptyMsg : String) : String :=
  let rows := emails.filterMap (fun email =>
    let acts := (if refDate ∈ cheddar email then ["체다 대화"] else []) ++
      (if refDate ∈ meal email then ["식단 기록"] else [])
    if acts ≠ [] then
      some ("| " ++ nameDisp names email ++ " | " ++
        String.intercalate ", " acts ++ " |\n")
    else Option.none)
  title ++ "| 사용자 | 사용 유형 |\n" ++ "|---|---|\n" ++
    (if rows ≠ [] then String.join rows else "| - | " ++ emptyMsg ++ " |\n")

/-- One row of the per-user latest-usage summary (lines 447–470). -/
def latestRow (cheddar meal : String → Finset ℤ) (weights : String → List (ℤ × ℚ))
    (names : String → Option String) (email : String) : String :=
  let weightDates := (weights email).map Prod.fst
  let latestWeightDate := weightDates.maximum
  let weightDisp :=
    match latestWeightDate with
    | some ld =>
        match alistGet ld (weights email) with
        | some w =>
            if w ≠ 0 then formatDate ld ++ " (" ++ fmt1 w ++ "kg)" else "없음"
        | Option.none => "없음"
    | ⊥ => "없음"
  "| " ++ nameDisp names email ++ " | " ++ latestDisp (cheddar email) ++ " | " ++
    latestDisp (meal email) ++ " | " ++ weightDisp ++ " |\n"

/-- Lines 479–497: the notification-eligibility list — roster users not in
the exclusion list with no meal record yesterday, as
`(name, email, registration display, latest meal display)` tuples, in
roster order. -/
def patientsForNotification (st : FAState) (meal : String → Finset ℤ)
    (names : String → Option String) (regs : String → Option (Option ℤ))
    (yesterday : ℤ) : List (String × String × String × String) :=
  st.user_emails.filterMap (fun email =>
    if email ∈ st.notification_exclude_list then Option.none
    else if yesterday ∈ meal email then Option.none
    else some (nameDisp names email, email, regDisplay (regs email),
      latestDisp (meal email)))

/-- `generate_markdown_table`, lines 273–525, faithfully assembled from the
section renderers above.  `now` is the `datetime.datetime.now()` value; the
grid runs from the hard-coded `start_date` to `now.date` inclusive. -/
def generate_markdown_table (st : FAState) (cheddar meal : String → Finset ℤ)
    (weights : String → List (ℤ × ℚ)) (names : String → Option String)
    (regs : String → Option (Option ℤ)) (now : PyNow) : String :=
  let today := now.date
  let yesterday := today - 1
  let twoDaysAgo := today - 2
  let dates := sortedDates start_date today
  let header :=
    "# 사용자 활동 분석\n\n" ++
    "## 분석 시간: " ++ formatDate now.date ++ " " ++ now.hms ++ "\n\n" ++
    "## 체다 대화 및 식단 기록 날짜\n\n" ++
    "| 사용자 | 이메일 | 회원가입일 |" ++
    String.join (dates.map (fun d => " " ++ formatDate d ++ " |")) ++
    " 사용자 |\n" ++
    "|" ++ String.join (List.replicate (dates.length + 4) "---|") ++ "\n"
  let grid := String.join (st.user_emails.map
    (mdUserRow cheddar meal weights names regs dates))
  let legend := "\n**범례**: C = 체다 대화, M = 식단 기록\n\n"
  let usersWithWeight := st.user_emails.filter (fun e => weights e ≠ [])
  let weightSection :=
    "## 사용자별 체중 변화 기록\n\n" ++
    (if usersWithWeight ≠ [] then
      String.join (usersWithWeight.map (weightHistory weights names))
    else "체중 기록이 있는 사용자가 없습니다.\n\n")
  let recent :=
    "## 최근 사용 기록 요약\n\n" ++
    recentBlock cheddar meal names st.user_emails today
      "### 오늘 사용 기록\n\n" "오늘 사용 기록이 없습니다" ++
    recentBlock cheddar meal names st.user_emails yesterday
      "\n### 어제 사용 기록\n\n" "어제 사용 기록이 없습니다" ++
    recentBlock cheddar meal names st.user_emails twoDaysAgo
      "\n### 2일 전 사용 기록\n\n" "2일 전 사용 기록이 없습니다"
  let latest :=
    "\n### 사용자별 최근 사용 기록\n\n" ++
    "| 사용자 | 최근 체다 대화 | 최근 식단 기록 | 최근 체중 기록 |\n" ++
    "|---|---|---|---|\n" ++
    String.join (st.user_emails.map (latestRow cheddar meal weights names))
  let notif :=
    "\n## 카카오 알림톡 보낼 환자 명단\n\n" ++
    "### 어제 식단 기록을 하지 않은 환자\n\n" ++
    "| 환자 이름 | 이메일 | 회원가입일 | 최근 식단 기록 |\n" ++
    "|---|---|---|---|\n" ++
    (match patientsForNotification st meal names regs yesterday with
     | [] => "| - | - | - | 어제 식단 기록을 하지 않은 환자가 없습니다 |\n"
     | ps => String.join (ps.map (fun p =>
         "| " ++ p.1 ++ " | " ++ localPart p.2.1 ++ " | " ++ p.2.2.1 ++ " | " ++
           p.2.2.2 ++ " |\n")))
  let dropout :=
    "\n### 현재 탈락 환자\n\n" ++
    "| 환자 이름 | 이메일 | 회원가입일 |\n" ++ "|---|---|---|\n" ++
    (match st.notification_exclude_list with
     | [] => "| - | - | 탈락 환자가 없습니다 |\n"
     | ex => String.join (ex.map (fun email =>
         "| " ++ nameDisp names email ++ " | " ++ localPart email ++ " | " ++
           regDisplay (regs email) ++ " |\n")))
  header ++ grid ++ legend ++ weightSection ++ recent ++ latest ++ notif ++ dropout

/-- The weight annotation a spreadsheet cell receives (lines 577–583):
nothing when the value is absent or falsy; otherwise appended with a leading
space when the cell already has text, bare otherwise. -/
def excelWeightAnnot (base : String) (w? : Option ℚ) : String :=
  match w? with
  | some w =>
      if w ≠ 0 then
        if base ≠ "" then base ++ " (" ++ fmt1 w ++ "kg)"
        else "(" ++ fmt1 w ++ "kg)"
      else base
  | Option.none => base

/-- One spreadsheet cell of `save_to_excel` (lines 567–585): the
conversation label takes priority over the meal label (`if has_cheddar: …
elif has_meal: …`), then the weight annotation. -/
def excelCell (cheddar meal : String → Finset ℤ) (weights : String → List (ℤ × ℚ))
    (email : String) (d : ℤ) : String :=
  let base :=
    if d ∈ cheddar email then "대화"
    else if d ∈ meal email then "식단"
    else ""
  excelWeightAnnot base (alistGet d (weights email))

/-- `save_to_excel`: one row per roster user — display name, email local
part, and one cell per date of the range. -/
def saveExcelRows (st : FAState) (cheddar meal : String → Finset ℤ)
    (weights : String → List (ℤ × ℚ)) (names : String → Option String)
    (today : ℤ) : List (String × String × List String) :=
  let dates := buildDates start_date today
  st.user_emails.map (fun email =>
    (nameDisp names email, localPart email,
      dates.map (excelCell cheddar meal weights email)))

end FA

namespace CA

/-- One grid cell of `_row_markdown` (lines 275–279): the markers of every
activity present that day, in `Activity` order, then — when a weight sample
exists (`is not None`) — the `(X.Xkg)` token; all joined without
separators. -/
def mdCell (matrices : Activity → String → Finset ℤ)
    (weights : String → List (ℤ × ℚ)) (email : String) (d : ℤ) : String :=
  let tokens := (activityOrder.filter (fun act => d ∈ matrices act email)).map
    Activity.value
  let tokens :=
    match alistGet d (weights email) with
    | some w => tokens ++ ["(" ++ fmt1 w ++ "kg)"]
    | Option.none => tokens
  String.join tokens

/-- `_row_markdown`: one table row. -/
def row_markdown (matrices : Activity → String → Finset ℤ)
    (weights : String → List (ℤ × ℚ)) (names : String → String)
    (dates : List ℤ) (email : String) : String :=
  "| " ++ String.intercalate " | "
    ([names email, localPart email] ++ dates.map (mdCell matrices weights email)
      ++ [names email]) ++ " |"

/-- `_render_markdown` (lines 239–262): header with the analysis date, one
row per configured email, legend.  `today` is `datetime.date.today()` at
render time. -/
def render_markdown (emails : List String) (start : ℤ)
    (matrices : Activity → String → Finset ℤ) (weights : String → List (ℤ × ℚ))
    (names : String → String) (today : ℤ) : String :=
  let dates := daterange start today
  let header :=
    "# Cheddar Activity Matrix\n\n" ++
    "Analysed: " ++ formatDate today ++ "\n\n" ++
    "| 이름 | 이메일 | " ++
    String.intercalate " | " (dates.map formatDate) ++ " | 이름 |\n" ++
    "|---|---|" ++ String.join (List.replicate (dates.length + 1) "---|") ++ "\n"
  let body := String.intercalate "\n"
    (emails.map (row_markdown matrices weights names dates))
  let legend := "\n**Legend**: C = Cheddar, M = Meal, (w) = weight kg\n"
  header ++ body ++ legend

/-- The renderer as run by the pipeline: `_render_markdown` reads only
`now.date` (`_dt.date.today()`); the time of day is not an input. -/
def renderWithClock (emails : List String) (start : ℤ)
    (matrices : Activity → String → Finset ℤ) (weights : String → List (ℤ × ℚ))
    (names : String → String) (now : PyNow) : String :=
  render_markdown emails start matrices weights names now.date

/-- One spreadsheet cell of `_save_excel` (lines 308–314): the markers of
every activity present that day are concatenated (no priority), then a
` (X.X)` weight annotation when a sample exists. -/
def excelCell (matrices : Activity → String → Finset ℤ)
    (weights : String → List (ℤ × ℚ)) (email : String) (d : ℤ) : String :=
  let cell := String.join
    ((activityOrder.filter (fun act => d ∈ matrices act email)).map Activity.value)
  match alistGet d (weights email) with
  | some w => cell ++ " (" ++ fmt1 w ++ ")"
  | Option.none => cell

/-- `_save_excel`: one row per configured email — name, email local part,
and one cell per date of the range. -/
def saveExcelRows (emails : List String) (start : ℤ)
    (matrices : Activity → String → Finset ℤ) (weights : String → List (ℤ × ℚ))
    (names : String → String) (today : ℤ) : List (String × String × List String) :=
  let dates := daterange start today
  emails.map (fun email =>
    (names email, localPart email, dates.map (excelCell matrices weights email)))

end CA

/-! ## `cheddar_4week_weight.py` -/

namespace W4

/-- The arithmetic of `calculate_onboarding_days` as a function of the
signup weekday (`0 = Monday … 6 = Sunday`). -/
def onboardingFromWeekday (weekday : ℕ) : ℕ :=
  let dts0 := (6 - weekday) % 7
  let dts := if dts0 = 0 then 7 else dts0
  max 1 (min (dts + 1) 7)

/-- `calculate_onboarding_days(signup_date)`: onboarding days from the
signup date's weekday. -/
def calculate_onboarding_days (signup : ℤ) : ℕ :=
  onboardingFromWeekday (weekdayOf signup)

/-- The same expression with the `max(1, ...)` lower clamp removed. -/
def onboardingNoClampFromWeekday (weekday : ℕ) : ℕ :=
  let dts0 := (6 - weekday) % 7
  let dts := if dts0 = 0 then 7 else dts0
  min (dts + 1) 7

/-- `calculate_onboarding_days` without its lower clamp. -/
def onboardingNoClamp (signup : ℤ) : ℕ :=
  onboardingNoClampFromWeekday (weekdayOf signup)

end W4

/-! ## Concrete instances used by witnesses and counterexamples -/

/-- A store on which every query succeeds with fixed contents. -/
def okStore : Store :=
  { patient := fun _ => .ok ⟨true, some "이름", some 739341⟩
    cheddar := fun _ => .ok [⟨"c20250401", []⟩]
    meal := fun _ => .ok [⟨"m20250402", []⟩]
    weekly := fun _ => .ok [⟨"w20250403", [("weight", PyVal.float (63.5 : ℚ))]⟩] }

/-- A store whose `cheddar` query raises for user `b@x.com` only. -/
def failBStore : Store :=
  { patient := fun _ => .ok ⟨true, some "이름", some 739341⟩
    cheddar := fun e => if e = "b@x.com" then .error "boom" else .ok []
    meal := fun _ => .ok []
    weekly := fun _ => .ok [] }

/-- A three-user roster whose middle user's fetch fails under `failBStore`. -/
def abcEmails : List String := ["a@x.com", "b@x.com", "c@x.com"]

/-- A two-user roster. -/
def abEmails : List String := ["a@x.com", "b@x.com"]

/-- A one-user analyzer state for the renderer counterexample. -/
def oneUserState : FA.FAState := ⟨["alice@x.com"], []⟩

/-- No activity dates at all. -/
def noDates : String → Finset ℤ := fun _ => ∅

/-- No weight samples at all. -/
def noWeights : String → List (ℤ × ℚ) := fun _ => []

/-- No directory names at all. -/
def noNames : String → Option String := fun _ => Option.none

/-- No registration dates at all. -/
def noRegs : String → Option (Option ℤ) := fun _ => Option.none

/-- An activity matrix with a conversation and a meal record for every user
on the single day `739266` (= 2025-01-15). -/
def bothOn739266 : CA.Activity → String → Finset ℤ := fun _ _ => {739266}

/-- A weight document carrying `weight = 63.5` under a decodable
identifier. -/
def docW635 : SDoc := ⟨"x20250115", [("weight", PyVal.float (63.5 : ℚ))]⟩

/-! ## Helper lemmas: association lists -/

/-- Looking up in an alist extended with a fresh binding. -/
theorem alistGet_append_one {α β : Type} [DecidableEq α] (l : List (α × β))
    (k k2 : α) (v : β) (h : alistGet k l = Option.none) :
    alistGet k2 (l ++ [(k, v)]) = if k2 = k then some v else alistGet k2 l := by
  induction l with
  | nil =>
    by_cases hk : k2 = k <;> simp [alistGet, hk]
    · intro h2; exact hk h2.symm
  | cons p rest ih =>
    obtain ⟨a, b⟩ := p
    by_cases ha : a = k
    · simp [alistGet, ha] at h
    · simp only [alistGet, List.cons_append] at h ⊢
      by_cases ha2 : a = k2
      · have : ¬ k2 = k := fun hh => ha (ha2.trans hh)
        simp [alistGet, ha2, this]
      · simp only [alistGet, if_neg ha2]
        exact ih (by simpa [alistGet, ha] using h)

/-- Looking up after rewriting every binding of key `k`. -/
theorem alistGet_map_update {α β : Type} [DecidableEq α] (l : List (α × β))
    (k k2 : α) (v : β) :
    alistGet k2 (l.map (fun p => if p.1 = k then (k, v) else p)) =
      if k2 = k then (alistGet k l).map (fun _ => v) else alistGet k2 l := by
  induction l with
  | nil => by_cases hk : k2 = k <;> simp [alistGet, hk]
  | cons p rest ih =>
    obtain ⟨a, b⟩ := p
    simp only [List.map_cons]
    by_cases ha : a = k
    · subst ha
      rw [if_pos rfl]
      by_cases hk : k2 = a
      · subst hk; simp [alistGet, ih]
      · have hne : ¬ a = k2 := fun hh => hk hh.symm
        simp only [alistGet, if_neg hne, if_neg hk, ih]
    · rw [if_neg ha]
      by_cases ha2 : a = k2
      · subst ha2
        have hk2 : ¬ a = k := ha
        simp [alistGet, if_neg hk2, fun hh : a = k => ha hh]
      · simp only [alistGet, if_neg ha2, ih, if_neg ha]

/-- `dictInsert` semantics under lookup. -/
theorem alistGet_dictInsert {α β : Type} [DecidableEq α] (l : List (α × β))
    (k k2 : α) (v : β) :
    alistGet k2 (dictInsert l k v) = if k2 = k then some v else alistGet k2 l := by
  unfold dictInsert
  cases h : alistGet k l with
  | none => exact alistGet_append_one l k k2 v h
  | some w => rw [alistGet_map_update l k k2 v, h]; rfl

/-- A key is absent exactly when lookup fails. -/
theorem alistGet_eq_none_iff {α β : Type} [DecidableEq α] (l : List (α × β)) (k : α) :
    alistGet k l = Option.none ↔ k ∉ l.map Prod.fst := by
  induction l with
  | nil => simp [alistGet]
  | cons p rest ih =>
    obtain ⟨a, b⟩ := p
    by_cases ha : a = k
    · subst ha; simp [alistGet]
    · simp [alistGet, ha, ih, Ne.symm ha]

/-- Inserting an absent key appends it to the key sequence. -/
theorem dictInsert_keys_of_absent {α β : Type} [DecidableEq α] (l : List (α × β))
    (k : α) (v : β) (h : alistGet k l = Option.none) :
    (dictInsert l k v).map Prod.fst = l.map Prod.fst ++ [k] := by
  unfold dictInsert; rw [h]; simp

/-- A fold of keyed inserts leaves the bindings of untouched keys alone. -/
theorem fold_dictInsert_preserve {β : Type} (val : String → β) (u : String) :
    ∀ (emails : List String) (acc : List (String × β)), u ∉ emails →
    alistGet u (emails.foldl (fun a e => dictInsert a e (val e)) acc) = alistGet u acc := by
  intro emails
  induction emails with
  | nil => intro acc _; rfl
  | cons e rest ih =>
    intro acc hnot
    rw [List.foldl_cons, ih _ (fun hm => hnot (List.mem_cons_of_mem _ hm))]
    rw [alistGet_dictInsert]
    rw [if_neg (fun hh => hnot (by rw [hh]; exact List.mem_cons_self e rest))]

/-- After a fold of keyed inserts, every visited key holds its value. -/
theorem fold_dictInsert_lookup {β : Type} (val : String → β) (u : String) :
    ∀ (emails : List String) (acc : List (String × β)), u ∈ emails →
    alistGet u (emails.foldl (fun a e => dictInsert a e (val e)) acc) = some (val u) := by
  intro emails
  induction emails with
  | nil => intro acc h; cases h
  | cons e rest ih =>
    intro acc hu
    by_cases hur : u ∈ rest
    · exact ih _ hur
    · have hue : u = e := by
        rcases List.mem_cons.mp hu with h | h
        · exact h
        · exact absurd h hur
      subst hue
      rw [List.foldl_cons, fold_dictInsert_preserve val u rest _ hur,
        alistGet_dictInsert, if_pos rfl]

/-- A fold of keyed inserts over fresh, distinct keys appends exactly those
keys, in order. -/
theorem fold_dictInsert_keys {β : Type} (val : String → β) :
    ∀ (emails : List String) (acc : List (String × β)), emails.Nodup →
    (∀ e ∈ emails, alistGet e acc = Option.none) →
    ((emails.foldl (fun a e => dictInsert a e (val e)) acc).map Prod.fst) =
      acc.map Prod.fst ++ emails := by
  intro emails
  induction emails with
  | nil => intro acc _ _; simp
  | cons e rest ih =>
    intro acc hnd habs
    have he : alistGet e acc = Option.none := habs e (List.mem_cons_self e rest)
    rw [List.foldl_cons, ih _ (List.nodup_cons.mp hnd).2]
    · rw [dictInsert_keys_of_absent _ _ _ he]
      simp
    · intro e2 he2
      rw [alistGet_dictInsert]
      rw [if_neg (fun hh => (List.nodup_cons.mp hnd).1 (by rw [← hh]; exact he2))]
      exact habs e2 (List.mem_cons_of_mem _ he2)

/-! ## Helper lemmas: calendar ranges -/

/-- Membership in the counted-out loop body. -/
theorem mem_buildDatesAux : ∀ (n : ℕ) (s d : ℤ),
    d ∈ FA.buildDatesAux n s ↔ s ≤ d ∧ d < s + n := by
  intro n
  induction n with
  | zero => intro s d; simp [FA.buildDatesAux]
  | succ n ih =>
    intro s d
    simp only [FA.buildDatesAux, List.mem_cons, ih]
    omega

/-- Membership in the `while` loop's list is exactly the closed range. -/
theorem mem_buildDates (s e d : ℤ) : d ∈ FA.buildDates s e ↔ s ≤ d ∧ d ≤ e := by
  rw [FA.buildDates, mem_buildDatesAux]
  omega

/-- The loop produces a strictly ascending list. -/
theorem sorted_buildDatesAux : ∀ (n : ℕ) (s : ℤ),
    List.Sorted (· < ·) (FA.buildDatesAux n s) := by
  intro n
  induction n with
  | zero => intro s; simp [FA.buildDatesAux]
  | succ n ih =>
    intro s
    rw [FA.buildDatesAux, List.sorted_cons]
    refine ⟨fun b hb => ?_, ih (s + 1)⟩
    rw [mem_buildDatesAux] at hb
    omega

/-- The `while` loop satisfies its loop-shaped recurrence (faithfulness of
the counted-out form). -/
theorem buildDates_unfold (s e : ℤ) :
    FA.buildDates s e = if s ≤ e then s :: FA.buildDates (s + 1) e else [] := by
  unfold FA.buildDates
  by_cases h : s ≤ e
  · rw [if_pos h]
    have h1 : (e + 1 - s).toNat = (e + 1 - (s + 1)).toNat + 1 := by omega
    rw [h1, FA.buildDatesAux]
  · rw [if_neg h]
    have h1 : (e + 1 - s).toNat = 0 := by omega
    rw [h1, FA.buildDatesAux]

/-- `range`/`map` form of the counted-out loop. -/
theorem range_map_eq_buildDatesAux : ∀ (n : ℕ) (s : ℤ),
    (List.range n).map (fun (i : ℕ) => s + (i : ℤ)) = FA.buildDatesAux n s := by
  intro n
  induction n with
  | zero => intro s; rfl
  | succ n ih =>
    intro s
    rw [List.range_succ_eq_map, List.map_cons, List.map_map, FA.buildDatesAux]
    congr 1
    · simp
    · rw [← ih (s + 1)]
      apply List.map_congr_left
      intro a _
      simp
      ring

/-- The comprehension of `daterange` and the `while` loop of
`FirebaseAnalyzer` produce the same list. -/
theorem daterange_eq_buildDates (s e : ℤ) : CA.daterange s e = FA.buildDates s e := by
  unfold CA.daterange FA.buildDates
  rw [show e - s + 1 = e + 1 - s by ring]
  exact range_map_eq_buildDatesAux _ s

/-- `sorted(all_dates)` returns the loop's list unchanged. -/
theorem sortedDates_eq_buildDates (s e : ℤ) :
    FA.sortedDates s e = FA.buildDates s e :=
  List.Sorted.insertionSort_eq ((sorted_buildDatesAux _ _).imp le_of_lt)

/-! ## Helper lemmas: date decoding -/

/-- The CPython-3.11 canonical parser rejects every string that is not ten
characters long. -/
theorem iso10?_of_length_ne (l : List Char) (h : l.length ≠ 10) :
    CA.iso10? l = Option.none := by
  unfold CA.iso10?
  split
  · exact absurd rfl h
  · rfl

/-- `_extract_date` on identifiers shorter than eight characters: the
composed `Y-M-D` string is shorter than ten characters, so `fromisoformat`
raises and `None` is returned. -/
theorem ca_extract_none_of_short (s : String) (h : s.length < 8) :
    CA.extract_date s = Option.none := by
  have hlen : s.data.length < 8 := h
  apply iso10?_of_length_ne
  simp only [List.length_append, List.length_cons, sliceChars, tail8,
    List.length_take, List.length_drop]
  omega

/-- `extract_date_from_document_id` on identifiers shorter than seven
characters: the day slice `[6:8]` is empty, `int('')` raises, `None` is
returned. -/
theorem fa_extract_none_of_short (s : String) (h : s.length < 7) :
    FA.extract_date_from_document_id s = Option.none := by
  have hlen : s.data.length < 7 := h
  have h3 : sliceChars (tail8 s) 6 8 = [] := by
    have hle : (tail8 s).length ≤ 6 := by
      simp only [tail8, List.length_drop]
      omega
    simp only [sliceChars]
    rw [List.drop_eq_nil_of_le hle]
    rfl
  have h4 : pyDigits? (sliceChars (tail8 s) 6 8) = Option.none := by
    rw [h3]; rfl
  cases h1 : pyDigits? (sliceChars (tail8 s) 0 4) with
  | none => simp [FA.extract_date_from_document_id, h1]
  | some y =>
    cases h2 : pyDigits? (sliceChars (tail8 s) 4 6) with
    | none => simp [FA.extract_date_from_document_id, h1, h2]
    | some m => simp [FA.extract_date_from_document_id, h1, h2, h4]

/-! ## Helper lemmas: the weight filter -/

/-- `weightStep` on a document with an undecodable identifier. -/
theorem weightStep_eq_of_date_none (acc : List (ℤ × ℚ)) (doc : SDoc)
    (hx : FA.extract_date_from_document_id doc.id = Option.none) :
    FA.weightStep acc doc = acc := by
  unfold FA.weightStep; rw [hx]

/-- `weightStep` on a document without a `weight` field. -/
theorem weightStep_eq_of_weight_none (acc : List (ℤ × ℚ)) (doc : SDoc) (d0 : ℤ)
    (hx : FA.extract_date_from_document_id doc.id = some d0)
    (hw : alistGet "weight" doc.data = Option.none) :
    FA.weightStep acc doc = acc := by
  unfold FA.weightStep; rw [hx, hw]

/-- `weightStep` on a document with a decodable identifier and a `weight`
field: the filter decides. -/
theorem weightStep_eq_of_some (acc : List (ℤ × ℚ)) (doc : SDoc) (d0 : ℤ) (w : PyVal)
    (hx : FA.extract_date_from_document_id doc.id = some d0)
    (hw : alistGet "weight" doc.data = some w) :
    FA.weightStep acc doc =
      if (pyIsNumber w && pyGtZero w) = true then dictInsert acc d0 (pyFloat w)
      else acc := by
  unfold FA.weightStep; rw [hx, hw]

/-- `_fetch_weights`' per-document step on a document with a decodable
identifier and a `weight` field: the same filter decides. -/
theorem caWeightStep_eq_of_some (acc : List (ℤ × ℚ)) (doc : SDoc) (d0 : ℤ)
    (w : PyVal) (hx : CA.extract_date doc.id = some d0)
    (hw : alistGet "weight" doc.data = some w) :
    CA.caWeightStep acc doc =
      if (pyIsNumber w && pyGtZero w) = true then dictInsert acc d0 (pyFloat w)
      else acc := by
  unfold CA.caWeightStep; rw [hx, hw]

/-- Effect of one document on the presence of a date key in the
accumulating weight dictionary. -/
theorem weightStep_presence (acc : List (ℤ × ℚ)) (doc : SDoc) (d : ℤ) :
    (∃ q, alistGet d (FA.weightStep acc doc) = some q) ↔
      ((∃ q, alistGet d acc = some q) ∨
        (FA.extract_date_from_document_id doc.id = some d ∧
          ∃ w, alistGet "weight" doc.data = some w ∧
            (pyIsNumber w && pyGtZero w) = true)) := by
  cases hx : FA.extract_date_from_document_id doc.id with
  | none => simp [weightStep_eq_of_date_none acc doc hx, hx]
  | some d0 =>
    cases hw : alistGet "weight" doc.data with
    | none => simp [weightStep_eq_of_weight_none acc doc d0 hx hw, hx, hw]
    | some w =>
      rw [weightStep_eq_of_some acc doc d0 w hx hw]
      by_cases hf : (pyIsNumber w && pyGtZero w) = true
      · rw [if_pos hf]
        constructor
        · rintro ⟨q, hq⟩
          rw [alistGet_dictInsert] at hq
          by_cases hd : d = d0
          · right
            exact ⟨by rw [hd], w, rfl, hf⟩
          · rw [if_neg hd] at hq
            left; exact ⟨q, hq⟩
        · rintro (⟨q, hq⟩ | ⟨hxd, w2, hw2, hf2⟩)
          · by_cases hd : d = d0
            · subst hd
              exact ⟨pyFloat w, by rw [alistGet_dictInsert, if_pos rfl]⟩
            · exact ⟨q, by rw [alistGet_dictInsert, if_neg hd]; exact hq⟩
          · have hd : d0 = d := Option.some.inj hxd
            subst hd
            exact ⟨pyFloat w, by rw [alistGet_dictInsert, if_pos rfl]⟩
      · rw [if_neg hf]
        constructor
        · intro hp; exact Or.inl hp
        · rintro (hp | ⟨hxd, w2, hw2, hf2⟩)
          · exact hp
          · exact absurd ((Option.some.inj hw2).symm ▸ hf2) hf

/-- Presence of a date key after folding the whole document stream. -/
theorem weight_fold_presence (docs : List SDoc) :
    ∀ (acc : List (ℤ × ℚ)) (d : ℤ),
    (∃ q, alistGet d (docs.foldl FA.weightStep acc) = some q) ↔
      ((∃ q, alistGet d acc = some q) ∨ ∃ doc ∈ docs,
        FA.extract_date_from_document_id doc.id = some d ∧
          ∃ w, alistGet "weight" doc.data = some w ∧
            (pyIsNumber w && pyGtZero w) = true) := by
  induction docs with
  | nil => intro acc d; simp
  | cons doc rest ih =>
    intro acc d
    rw [List.foldl_cons, ih, weightStep_presence]
    simp only [List.mem_cons]
    constructor
    · rintro ((hp | hdoc) | ⟨doc2, hm, hrest⟩)
      · exact Or.inl hp
      · exact Or.inr ⟨doc, Or.inl rfl, hdoc⟩
      · exact Or.inr ⟨doc2, Or.inr hm, hrest⟩
    · rintro (hp | ⟨doc2, (rfl | hm), hrest⟩)
      · exact Or.inl (Or.inl hp)
      · exact Or.inl (Or.inr hrest)
      · exact Or.inr ⟨doc2, hm, hrest⟩

/-- Effect of one document on the value bound to a date key. -/
theorem weightStep_value (acc : List (ℤ × ℚ)) (doc : SDoc) (d : ℤ) (q : ℚ)
    (h : alistGet d (FA.weightStep acc doc) = some q) :
    alistGet d acc = some q ∨
      (FA.extract_date_from_document_id doc.id = some d ∧
        ∃ w, alistGet "weight" doc.data = some w ∧
          (pyIsNumber w && pyGtZero w) = true ∧ q = pyFloat w) := by
  cases hx : FA.extract_date_from_document_id doc.id with
  | none => rw [weightStep_eq_of_date_none acc doc hx] at h; exact Or.inl h
  | some d0 =>
    cases hw : alistGet "weight" doc.data with
    | none =>
      rw [weightStep_eq_of_weight_none acc doc d0 hx hw] at h
      exact Or.inl h
    | some w =>
      rw [weightStep_eq_of_some acc doc d0 w hx hw] at h
      by_cases hf : (pyIsNumber w && pyGtZero w) = true
      · rw [if_pos hf, alistGet_dictInsert] at h
        by_cases hd : d = d0
        · rw [if_pos hd] at h
          right
          exact ⟨by rw [hd], w, rfl, hf, (Option.some.inj h).symm⟩
        · rw [if_neg hd] at h
          exact Or.inl h
      · rw [if_neg hf] at h
        exact Or.inl h

/-- Provenance of every binding of the folded weight dictionary. -/
theorem weight_fold_value (docs : List SDoc) :
    ∀ (acc : List (ℤ × ℚ)) (d : ℤ) (q : ℚ),
    alistGet d (docs.foldl FA.weightStep acc) = some q →
      (alistGet d acc = some q ∨ ∃ doc ∈ docs,
        FA.extract_date_from_document_id doc.id = some d ∧
          ∃ w, alistGet "weight" doc.data = some w ∧
            (pyIsNumber w && pyGtZero w) = true ∧ q = pyFloat w) := by
  induction docs with
  | nil => intro acc d q h; exact Or.inl h
  | cons doc rest ih =>
    intro acc d q h
    rw [List.foldl_cons] at h
    rcases ih _ d q h with hstep | ⟨doc2, hm, hrest⟩
    · rcases weightStep_value acc doc d q hstep with hacc | hdoc
      · exact Or.inl hacc
      · exact Or.inr ⟨doc, List.mem_cons_self _ _, hdoc⟩
    · exact Or.inr ⟨doc2, List.mem_cons_of_mem _ hm, hrest⟩

/-! ## Helper lemmas: the aggregators -/

/-- The `cheddar` dictionary of the aggregation fold, projected out. -/
theorem analyze_foldl_cheddar (store : Store) :
    ∀ (emails : List String) (acc : FA.FAResult),
    ((emails.foldl (FA.analyzeStep store) acc).cheddar) =
      emails.foldl (fun a e => dictInsert a e
        (FA.get_cheddar_conversation_dates (store.cheddar e))) acc.cheddar := by
  intro emails
  induction emails with
  | nil => intro acc; rfl
  | cons e rest ih => intro acc; rw [List.foldl_cons, List.foldl_cons, ih]; rfl

/-- The `meal` dictionary of the aggregation fold, projected out. -/
theorem analyze_foldl_meal (store : Store) :
    ∀ (emails : List String) (acc : FA.FAResult),
    ((emails.foldl (FA.analyzeStep store) acc).meal) =
      emails.foldl (fun a e => dictInsert a e
        (FA.get_meal_tracking_dates (store.meal e))) acc.meal := by
  intro emails
  induction emails with
  | nil => intro acc; rfl
  | cons e rest ih => intro acc; rw [List.foldl_cons, List.foldl_cons, ih]; rfl

/-- The `weights` dictionary of the aggregation fold, projected out. -/
theorem analyze_foldl_weights (store : Store) :
    ∀ (emails : List String) (acc : FA.FAResult),
    ((emails.foldl (FA.analyzeStep store) acc).weights) =
      emails.foldl (fun a e => dictInsert a e
        (FA.get_weight_data (store.weekly e))) acc.weights := by
  intro emails
  induction emails with
  | nil => intro acc; rfl
  | cons e rest ih => intro acc; rw [List.foldl_cons, List.foldl_cons, ih]; rfl

/-- The `names` dictionary of the aggregation fold, projected out. -/
theorem analyze_foldl_names (store : Store) :
    ∀ (emails : List String) (acc : FA.FAResult),
    ((emails.foldl (FA.analyzeStep store) acc).names) =
      emails.foldl (fun a e => dictInsert a e
        (FA.get_user_name (store.patient e) e)) acc.names := by
  intro emails
  induction emails with
  | nil => intro acc; rfl
  | cons e rest ih => intro acc; rw [List.foldl_cons, List.foldl_cons, ih]; rfl

/-- The `regs` dictionary of the aggregation fold, projected out. -/
theorem analyze_foldl_regs (store : Store) :
    ∀ (emails : List String) (acc : FA.FAResult),
    ((emails.foldl (FA.analyzeStep store) acc).regs) =
      emails.foldl (fun a e => dictInsert a e
        (FA.get_user_registration_date (store.patient e))) acc.regs := by
  intro emails
  induction emails with
  | nil => intro acc; rfl
  | cons e rest ih => intro acc; rw [List.foldl_cons, List.foldl_cons, ih]; rfl

/-- Inversion of a successful `_collect_all_users` step: all four queries of
the head user succeeded and the loop continued on the updated tensors. -/
theorem collect_cons_ok (store : Store) (email : String) (rest : List String)
    (acc res : CA.CAResult)
    (h : CA.collect_all_users store (email :: rest) acc = .ok res) :
    ∃ nm cd md wd,
      CA.lookup_patient_name (store.patient email) email = .ok nm ∧
      CA.fetch_dates (store.cheddar email) = .ok cd ∧
      CA.fetch_dates (store.meal email) = .ok md ∧
      CA.fetch_weights (store.weekly email) = .ok wd ∧
      CA.collect_all_users store rest
        ⟨dictInsert acc.cheddarM email cd, dictInsert acc.mealM email md,
         dictInsert acc.weights email wd, dictInsert acc.names email nm⟩ = .ok res := by
  unfold CA.collect_all_users at h
  cases h1 : CA.lookup_patient_name (store.patient email) email with
  | error e => rw [h1] at h; simp at h
  | ok nm =>
    rw [h1] at h
    cases h2 : CA.fetch_dates (store.cheddar email) with
    | error e => rw [h2] at h; simp at h
    | ok cd =>
      rw [h2] at h
      cases h3 : CA.fetch_dates (store.meal email) with
      | error e => rw [h3] at h; simp at h
      | ok md =>
        rw [h3] at h
        cases h4 : CA.fetch_weights (store.weekly email) with
        | error e => rw [h4] at h; simp at h
        | ok wd =>
          rw [h4] at h
          exact ⟨nm, cd, md, wd, rfl, rfl, rfl, rfl, h⟩

/-- After a successful `_collect_all_users` run over distinct fresh emails,
the key sequence of each tensor is the accumulated keys followed by the
roster, in order. -/
theorem collect_keys (store : Store) :
    ∀ (emails : List String) (acc res : CA.CAResult), emails.Nodup →
    (∀ e ∈ emails, alistGet e acc.cheddarM = Option.none ∧
      alistGet e acc.mealM = Option.none ∧ alistGet e acc.weights = Option.none ∧
      alistGet e acc.names = Option.none) →
    CA.collect_all_users store emails acc = .ok res →
    res.cheddarM.map Prod.fst = acc.cheddarM.map Prod.fst ++ emails ∧
    res.mealM.map Prod.fst = acc.mealM.map Prod.fst ++ emails ∧
    res.weights.map Prod.fst = acc.weights.map Prod.fst ++ emails ∧
    res.names.map Prod.fst = acc.names.map Prod.fst ++ emails := by
  intro emails
  induction emails with
  | nil =>
    intro acc res _ _ h
    unfold CA.collect_all_users at h
    injection h with h
    subst h
    simp
  | cons e rest ih =>
    intro acc res hnd habs h
    obtain ⟨nm, cd, md, wd, h1, h2, h3, h4, hrec⟩ :=
      collect_cons_ok store e rest acc res h
    have habse := habs e (List.mem_cons_self e rest)
    have hne : ∀ e2 ∈ rest, ¬ e2 = e :=
      fun e2 he2 hh => (List.nodup_cons.mp hnd).1 (by rw [← hh]; exact he2)
    have habs2 : ∀ e2 ∈ rest,
        alistGet e2 (dictInsert acc.cheddarM e cd) = Option.none ∧
        alistGet e2 (dictInsert acc.mealM e md) = Option.none ∧
        alistGet e2 (dictInsert acc.weights e wd) = Option.none ∧
        alistGet e2 (dictInsert acc.names e nm) = Option.none := by
      intro e2 he2
      have habs3 := habs e2 (List.mem_cons_of_mem _ he2)
      refine ⟨?_, ?_, ?_, ?_⟩ <;>
        rw [alistGet_dictInsert, if_neg (hne e2 he2)]
      · exact habs3.1
      · exact habs3.2.1
      · exact habs3.2.2.1
      · exact habs3.2.2.2
    have hih := ih _ res (List.nodup_cons.mp hnd).2 habs2 hrec
    refine ⟨?_, ?_, ?_, ?_⟩
    · rw [hih.1, dictInsert_keys_of_absent _ _ _ habse.1]; simp
    · rw [hih.2.1, dictInsert_keys_of_absent _ _ _ habse.2.1]; simp
    · rw [hih.2.2.1, dictInsert_keys_of_absent _ _ _ habse.2.2.1]; simp
    · rw [hih.2.2.2, dictInsert_keys_of_absent _ _ _ habse.2.2.2]; simp

/-! ## Claim theorems -/

/-- Claim C7: the calendar-date sequence used for the report grid
(`sorted(all_dates)` in `generate_markdown_table`, the `while` loop in
`save_to_excel`, and `daterange` in the `CheddarAnalyzer` variant) contains
exactly the dates `d` with `rangeStart ≤ d ≤ today`, both endpoints
included, in strictly ascending order (hence one entry per day), and is
built without consulting any activity data. -/
theorem claim_C7 (s e d : ℤ) :
    (d ∈ FA.buildDates s e ↔ s ≤ d ∧ d ≤ e) ∧
    List.Sorted (· < ·) (FA.buildDates s e) ∧
    FA.sortedDates s e = FA.buildDates s e ∧
    (d ∈ CA.daterange s e ↔ s ≤ d ∧ d ≤ e) ∧
    List.Sorted (· < ·) (CA.daterange s e) := by
  refine ⟨mem_buildDates s e d, sorted_buildDatesAux _ _,
    sortedDates_eq_buildDates s e, ?_, ?_⟩
  · rw [daterange_eq_buildDates]; exact mem_buildDates s e d
  · rw [daterange_eq_buildDates]; exact sorted_buildDatesAux _ _

/-- Claim C10: for every signup date, `calculate_onboarding_days` returns a
value between 2 and 7 inclusive and never 1, so the `max(1, ...)` lower
clamp is unreachable (removing it changes nothing); Saturday signups give
2, Sunday and Monday signups give 7 (checked at 2025-06-14, 2025-06-15 and
2025-06-16). -/
theorem claim_C10 : ∀ signup : ℤ,
    (2 ≤ W4.calculate_onboarding_days signup ∧
     W4.calculate_onboarding_days signup ≤ 7 ∧
     W4.calculate_onboarding_days signup ≠ 1 ∧
     W4.calculate_onboarding_days signup = W4.onboardingNoClamp signup) ∧
    W4.calculate_onboarding_days (rataDie 2025 6 14) = 2 ∧
    W4.calculate_onboarding_days (rataDie 2025 6 15) = 7 ∧
    W4.calculate_onboarding_days (rataDie 2025 6 16) = 7 := by
  intro signup
  refine ⟨?_, by decide, by decide, by decide⟩
  have hlt : weekdayOf signup < 7 := by unfold weekdayOf; omega
  unfold W4.calculate_onboarding_days W4.onboardingNoClamp
  generalize weekdayOf signup = w at hlt ⊢
  interval_cases w <;> decide

/-- Claim C6: a roster user appears in the notification-eligibility list
(`patients_for_notification`, which `generate_markdown_table` renders one
row per entry) if and only if the user is not in the exclusion list and
yesterday is not in the user's meal-date set. -/
theorem claim_C6 (st : FA.FAState) (meal : String → Finset ℤ)
    (names : String → Option String) (regs : String → Option (Option ℤ))
    (yesterday : ℤ) (u : String) :
    (∃ t ∈ FA.patientsForNotification st meal names regs yesterday, t.2.1 = u) ↔
      (u ∈ st.user_emails ∧ u ∉ st.notification_exclude_list ∧
        yesterday ∉ meal u) := by
  unfold FA.patientsForNotification
  constructor
  · rintro ⟨t, ht, htu⟩
    rw [List.mem_filterMap] at ht
    obtain ⟨a, ha, hfa⟩ := ht
    by_cases hex : a ∈ st.notification_exclude_list
    · rw [if_pos hex] at hfa; cases hfa
    · rw [if_neg hex] at hfa
      by_cases hm : yesterday ∈ meal a
      · rw [if_pos hm] at hfa; cases hfa
      · rw [if_neg hm] at hfa
        have hau : a = u := by
          rw [← htu, ← Option.some.inj hfa]
        subst hau
        exact ⟨ha, hex, hm⟩
  · rintro ⟨hu, hex, hm⟩
    refine ⟨(FA.nameDisp names u, u, FA.regDisplay (regs u),
      FA.latestDisp (meal u)), ?_, rfl⟩
    rw [List.mem_filterMap]
    exact ⟨u, hu, by rw [if_neg hex, if_neg hm]⟩

/-- Claim C2 (amended): `_extract_date` (CheddarAnalyzer) indeed returns
`None` on every identifier shorter than 8 characters; but
`extract_date_from_document_id` (FirebaseAnalyzer) only guarantees this for
identifiers shorter than 7 characters — a 7-character identifier whose
digit slices form a valid date decodes to a date (see the
counterexample). -/
theorem claim_C2 (s : String) :
    (s.length < 8 → CA.extract_date s = Option.none) ∧
    (s.length < 7 → FA.extract_date_from_document_id s = Option.none) :=
  ⟨ca_extract_none_of_short s, fa_extract_none_of_short s⟩

/-- Witness for claim C2 at the concrete identifier `"abc"`. -/
theorem claim_C2_witness :
    CA.extract_date "abc" = Option.none ∧
    FA.extract_date_from_document_id "abc" = Option.none :=
  ⟨(claim_C2 "abc").1 (by decide), (claim_C2 "abc").2 (by decide)⟩

/-- Counterexample to claim C2 as stated: the 7-character identifier
`"0250115"` slices into year 250, month 11, day 5 — a valid calendar date —
so `extract_date_from_document_id` returns the date 0250-11-05 instead of
`None`. -/
theorem claim_C2_counterexample :
    ("0250115".length < 8) ∧
    FA.extract_date_from_document_id "0250115" ≠ Option.none ∧
    FA.extract_date_from_document_id "0250115" = some (rataDie 250 11 5) := by
  refine ⟨by decide, by decide, by decide⟩

/-- Claim C1 (amended): in the `FirebaseAnalyzer` pipeline the claim holds —
each roster user's aggregated entry is exactly the reduction of that user's
own store queries (so a failure for one user cannot change any other
user's results), and every fetcher maps a raised query to the empty
collection or default name.  In the `CheddarAnalyzer` variant the claim
fails: its fetchers have no exception handler, so a raised query aborts the
whole run (see the counterexample). -/
theorem claim_C1 (store : Store) (emails : List String) (u : String)
    (hu : u ∈ emails) :
    (alistGet u (FA.analyze_all_users store emails).cheddar =
      some (FA.get_cheddar_conversation_dates (store.cheddar u))) ∧
    (alistGet u (FA.analyze_all_users store emails).meal =
      some (FA.get_meal_tracking_dates (store.meal u))) ∧
    (alistGet u (FA.analyze_all_users store emails).weights =
      some (FA.get_weight_data (store.weekly u))) ∧
    (alistGet u (FA.analyze_all_users store emails).names =
      some (FA.get_user_name (store.patient u) u)) ∧
    (alistGet u (FA.analyze_all_users store emails).regs =
      some (FA.get_user_registration_date (store.patient u))) ∧
    (∀ msg, FA.get_cheddar_conversation_dates (.error msg) = ∅) ∧
    (∀ msg, FA.get_meal_tracking_dates (.error msg) = ∅) ∧
    (∀ msg, FA.get_weight_data (.error msg) = []) ∧
    (∀ msg, FA.get_user_name (.error msg) u = localPart u) ∧
    (∀ msg, FA.get_user_registration_date (.error msg) = Option.none) := by
  refine ⟨?_, ?_, ?_, ?_, ?_, fun _ => rfl, fun _ => rfl, fun _ => rfl,
    fun _ => rfl, fun _ => rfl⟩
  · rw [FA.analyze_all_users, analyze_foldl_cheddar]
    exact fold_dictInsert_lookup _ u emails _ hu
  · rw [FA.analyze_all_users, analyze_foldl_meal]
    exact fold_dictInsert_lookup _ u emails _ hu
  · rw [FA.analyze_all_users, analyze_foldl_weights]
    exact fold_dictInsert_lookup _ u emails _ hu
  · rw [FA.analyze_all_users, analyze_foldl_names]
    exact fold_dictInsert_lookup _ u emails _ hu
  · rw [FA.analyze_all_users, analyze_foldl_regs]
    exact fold_dictInsert_lookup _ u emails _ hu

/-- Witness for claim C1: user `a@x.com` of the three-user roster under
`okStore` receives exactly the reduction of its own queries. -/
theorem claim_C1_witness :
    alistGet "a@x.com" (FA.analyze_all_users okStore abcEmails).cheddar =
      some (FA.get_cheddar_conversation_dates (okStore.cheddar "a@x.com")) :=
  (claim_C1 okStore abcEmails "a@x.com" (by decide)).1

/-- Counterexample to claim C1 as stated: in the `CheddarAnalyzer` variant a
raised `cheddar` query for the middle user `b@x.com` is not caught — the
whole aggregation aborts with the exception, and no user receives any
result. -/
theorem claim_C1_counterexample :
    CA.collect_all_users failBStore abcEmails CA.emptyCAResult =
      .error "boom" := by
  rfl

/-- Claim C9: after aggregation over a duplicate-free roster, each returned
per-user mapping (`FirebaseAnalyzer`: conversation dates, meal dates,
weights, names, registration dates; `CheddarAnalyzer`, when its run
returns: both activity matrices, weights, names) has key sequence exactly
the roster, in roster order — every roster user gets an entry and no other
key ever appears. -/
theorem claim_C9 (store : Store) (emails : List String) (hnd : emails.Nodup) :
    ((FA.analyze_all_users store emails).cheddar.map Prod.fst = emails ∧
     (FA.analyze_all_users store emails).meal.map Prod.fst = emails ∧
     (FA.analyze_all_users store emails).weights.map Prod.fst = emails ∧
     (FA.analyze_all_users store emails).names.map Prod.fst = emails ∧
     (FA.analyze_all_users store emails).regs.map Prod.fst = emails) ∧
    (∀ res : CA.CAResult,
      CA.collect_all_users store emails CA.emptyCAResult = .ok res →
      res.cheddarM.map Prod.fst = emails ∧ res.mealM.map Prod.fst = emails ∧
      res.weights.map Prod.fst = emails ∧ res.names.map Prod.fst = emails) := by
  constructor
  · refine ⟨?_, ?_, ?_, ?_, ?_⟩
    · rw [FA.analyze_all_users, analyze_foldl_cheddar]
      simpa using fold_dictInsert_keys _ emails [] hnd (fun _ _ => rfl)
    · rw [FA.analyze_all_users, analyze_foldl_meal]
      simpa using fold_dictInsert_keys _ emails [] hnd (fun _ _ => rfl)
    · rw [FA.analyze_all_users, analyze_foldl_weights]
      simpa using fold_dictInsert_keys _ emails [] hnd (fun _ _ => rfl)
    · rw [FA.analyze_all_users, analyze_foldl_names]
      simpa using fold_dictInsert_keys _ emails [] hnd (fun _ _ => rfl)
    · rw [FA.analyze_all_users, analyze_foldl_regs]
      simpa using fold_dictInsert_keys _ emails [] hnd (fun _ _ => rfl)
  · intro res h
    have hck := collect_keys store emails CA.emptyCAResult res hnd
      (fun _ _ => ⟨rfl, rfl, rfl, rfl⟩) h
    simpa using hck

/-- Witness for claim C9 on the concrete two-user roster under `okStore`. -/
theorem claim_C9_witness :
    (FA.analyze_all_users okStore abEmails).cheddar.map Prod.fst = abEmails :=
  (claim_C9 okStore abEmails (by decide)).1.1

/-- Claim C5: the weight fetch binds a date if and only if some store
record's identifier decodes to that date and the record carries a `weight`
field that is numeric and strictly positive; every bound value is
`float(weight)` of such a record; in particular `weight = -5` and
`weight = 0` are excluded, and `weight = 63.5` is included as `63.5` (also
in the `CheddarAnalyzer` variant). -/
theorem claim_C5 (docs : List SDoc) (d : ℤ) (q : ℚ) :
    ((∃ q2, alistGet d (FA.get_weight_data (.ok docs)) = some q2) ↔
      ∃ doc ∈ docs, FA.extract_date_from_document_id doc.id = some d ∧
        ∃ w, alistGet "weight" doc.data = some w ∧
          pyIsNumber w = true ∧ pyGtZero w = true) ∧
    (alistGet d (FA.get_weight_data (.ok docs)) = some q →
      ∃ doc ∈ docs, FA.extract_date_from_document_id doc.id = some d ∧
        ∃ w, alistGet "weight" doc.data = some w ∧
          pyIsNumber w = true ∧ pyGtZero w = true ∧ q = pyFloat w) ∧
    FA.get_weight_data (.ok [⟨"x20250115", [("weight", PyVal.int (-5))]⟩]) = [] ∧
    FA.get_weight_data (.ok [⟨"x20250115", [("weight", PyVal.int 0)]⟩]) = [] ∧
    FA.get_weight_data (.ok [docW635]) = [(rataDie 2025 1 15, (63.5 : ℚ))] ∧
    CA.fetch_weights (.ok [docW635]) = .ok [(rataDie 2025 1 15, (63.5 : ℚ))] := by
  have h635 : (pyIsNumber (PyVal.float (63.5 : ℚ)) &&
      pyGtZero (PyVal.float (63.5 : ℚ))) = true := by
    rw [Bool.and_eq_true]
    exact ⟨rfl, decide_eq_true (by norm_num)⟩
  refine ⟨?_, ?_, by decide, by decide, ?_, ?_⟩
  · have hgw : FA.get_weight_data (.ok docs) = docs.foldl FA.weightStep [] := rfl
    rw [hgw, weight_fold_presence docs [] d]
    simp only [alistGet, Bool.and_eq_true]
    constructor
    · rintro (⟨q2, hq2⟩ | hdoc)
      · cases hq2
      · exact hdoc
    · exact Or.inr
  · intro h
    have hgw : FA.get_weight_data (.ok docs) = docs.foldl FA.weightStep [] := rfl
    rw [hgw] at h
    rcases weight_fold_value docs [] d q h with hacc | hdoc
    · cases hacc
    · simpa only [Bool.and_eq_true, and_assoc] using hdoc
  · have hstep := weightStep_eq_of_some [] docW635 (rataDie 2025 1 15)
      (PyVal.float (63.5 : ℚ)) (by decide) rfl
    calc FA.get_weight_data (.ok [docW635]) = FA.weightStep [] docW635 := rfl
      _ = dictInsert [] (rataDie 2025 1 15) (pyFloat (PyVal.float (63.5 : ℚ))) := by
          rw [hstep, if_pos h635]
      _ = [(rataDie 2025 1 15, (63.5 : ℚ))] := rfl
  · have hstep := caWeightStep_eq_of_some [] docW635 (rataDie 2025 1 15)
      (PyVal.float (63.5 : ℚ)) (by decide) rfl
    calc CA.fetch_weights (.ok [docW635]) = .ok (CA.caWeightStep [] docW635) := rfl
      _ = .ok [(rataDie 2025 1 15, (63.5 : ℚ))] := by rw [hstep, if_pos h635]; rfl

/-- Witness for claim C5: provenance of the binding produced by the
concrete `63.5` document. -/
theorem claim_C5_witness :
    ∃ doc ∈ [docW635],
      FA.extract_date_from_document_id doc.id = some (rataDie 2025 1 15) ∧
      ∃ w, alistGet "weight" doc.data = some w ∧
        pyIsNumber w = true ∧ pyGtZero w = true ∧ (63.5 : ℚ) = pyFloat w :=
  (claim_C5 [docW635] (rataDie 2025 1 15) (63.5 : ℚ)).2.1
    (by rw [(claim_C5 [docW635] (rataDie 2025 1 15) (63.5 : ℚ)).2.2.2.2.1]; rfl)

/-- Claim C8: a record whose `weight` field is the boolean `True` passes the
filter (Python's `bool` is a subclass of `int`, and `True > 0`) and is
stored as the float `1.0`, in both variants. -/
theorem claim_C8 (s : String) (d : ℤ)
    (h1 : FA.extract_date_from_document_id s = some d)
    (h2 : CA.extract_date s = some d) :
    FA.get_weight_data (.ok [⟨s, [("weight", PyVal.bool true)]⟩]) =
      [(d, (1 : ℚ))] ∧
    CA.fetch_weights (.ok [⟨s, [("weight", PyVal.bool true)]⟩]) =
      .ok [(d, (1 : ℚ))] := by
  constructor
  · have hgw : FA.get_weight_data (.ok [⟨s, [("weight", PyVal.bool true)]⟩]) =
        FA.weightStep [] ⟨s, [("weight", PyVal.bool true)]⟩ := rfl
    rw [hgw,
      weightStep_eq_of_some [] ⟨s, [("weight", PyVal.bool true)]⟩ d
        (PyVal.bool true) h1 rfl]
    rfl
  · have hfw : CA.fetch_weights (.ok [⟨s, [("weight", PyVal.bool true)]⟩]) =
        .ok (CA.caWeightStep [] ⟨s, [("weight", PyVal.bool true)]⟩) := rfl
    rw [hfw,
      caWeightStep_eq_of_some [] ⟨s, [("weight", PyVal.bool true)]⟩ d
        (PyVal.bool true) h2 rfl]
    rfl

/-- Witness for claim C8 at the concrete identifier `"x20250115"`. -/
theorem claim_C8_witness :
    FA.get_weight_data
        (.ok [⟨"x20250115", [("weight", PyVal.bool true)]⟩]) =
      [(rataDie 2025 1 15, (1 : ℚ))] ∧
    CA.fetch_weights
        (.ok [⟨"x20250115", [("weight", PyVal.bool true)]⟩]) =
      .ok [(rataDie 2025 1 15, (1 : ℚ))] :=
  claim_C8 "x20250115" (rataDie 2025 1 15) (by decide) (by decide)

/-- Claim C3 (amended): in `FirebaseAnalyzer.save_to_excel` the claim holds —
when a user has both a conversation and a meal record on a day, the cell
text before any weight annotation is the conversation label `"대화"` only.
In `CheddarAnalyzer._save_excel` the claim fails: that exporter
concatenates the markers of every activity present, so a day with both
records renders `"CM"` (see the counterexample). -/
theorem claim_C3 (cheddar meal : String → Finset ℤ)
    (weights : String → List (ℤ × ℚ)) (email : String) (d : ℤ)
    (h1 : d ∈ cheddar email) (h2 : d ∈ meal email) :
    FA.excelCell cheddar meal weights email d =
      "대화" ++ (match alistGet d (weights email) with
        | some w => if w ≠ 0 then " (" ++ fmt1 w ++ "kg)" else ""
        | Option.none => "") := by
  unfold FA.excelCell FA.excelWeightAnnot
  rw [if_pos h1]
  cases alistGet d (weights email) with
  | none => rfl
  | some w =>
    show (if w ≠ 0 then
        (if ("대화" : String) ≠ "" then "대화" ++ " (" ++ fmt1 w ++ "kg)"
          else "(" ++ fmt1 w ++ "kg)")
      else "대화") =
      "대화" ++ (if w ≠ 0 then " (" ++ fmt1 w ++ "kg)" else "")
    by_cases hw : w ≠ 0
    · rw [if_pos hw, if_pos (by decide : ("대화" : String) ≠ ""), if_pos hw,
        String.append_assoc, String.append_assoc,
        String.append_assoc (" (") (fmt1 w) "kg)"]
    · rw [if_neg hw, if_neg hw]
      rfl

/-- Witness for claim C3: a user with both records on day 739266 and no
weight sample gets the bare conversation label. -/
theorem claim_C3_witness :
    FA.excelCell (fun _ => {739266}) (fun _ => {739266}) noWeights
        "u@x.com" 739266 =
      "대화" ++ (match alistGet (739266 : ℤ) (noWeights "u@x.com") with
        | some w => if w ≠ 0 then " (" ++ fmt1 w ++ "kg)" else ""
        | Option.none => "") :=
  claim_C3 (fun _ => {739266}) (fun _ => {739266}) noWeights "u@x.com" 739266
    (by decide) (by decide)

/-- Counterexample to claim C3 as stated: in `CheddarAnalyzer._save_excel` a
user with both a conversation and a meal record on 2025-01-15 gets the cell
text `"CM"` — the concatenation of both labels, not the conversation label
alone. -/
theorem claim_C3_counterexample :
    CA.saveExcelRows ["u@x.com"] 739266 bothOn739266 noWeights
        (fun _ => "유저") 739266 = [("유저", "u", ["CM"])] ∧
    ("CM" : String) ≠ "C" := by
  refine ⟨by decide, by decide⟩

/-- Claim C4 (amended): the `CheddarAnalyzer` Markdown renderer is a pure
function of the aggregated inputs and the current date — it reads nothing
else from the clock, so two runs on the same date at any two times of day
produce byte-identical output.  The `FirebaseAnalyzer` renderer violates
the claim: it interpolates `now.strftime('%Y-%m-%d %H:%M:%S')` into the
report header, so two runs on the same date at different wall-clock times
differ (see the counterexample). -/
theorem claim_C4 (emails : List String) (start : ℤ)
    (matrices : CA.Activity → String → Finset ℤ)
    (weights : String → List (ℤ × ℚ)) (names : String → String)
    (n1 n2 : PyNow) (h : n1.date = n2.date) :
    CA.renderWithClock emails start matrices weights names n1 =
      CA.renderWithClock emails start matrices weights names n2 := by
  unfold CA.renderWithClock
  rw [h]

/-- Witness for claim C4: identical reports at 00:00:00 and 23:59:59 of the
same day. -/
theorem claim_C4_witness :
    CA.renderWithClock ["alice@x.com"] 739341 bothOn739266 noWeights
        (fun _ => "앨리스") ⟨739341, "00:00:00"⟩ =
      CA.renderWithClock ["alice@x.com"] 739341 bothOn739266 noWeights
        (fun _ => "앨리스") ⟨739341, "23:59:59"⟩ :=
  claim_C4 ["alice@x.com"] 739341 bothOn739266 noWeights (fun _ => "앨리스")
    ⟨739341, "00:00:00"⟩ ⟨739341, "23:59:59"⟩ rfl

/-- Counterexample to claim C4 as stated: two `FirebaseAnalyzer` renderings
with identical store contents and the same date, one second apart, produce
different Markdown (the analysis-time header line embeds `%H:%M:%S`). -/
theorem claim_C4_counterexample :
    FA.generate_markdown_table oneUserState noDates noDates noWeights noNames
        noRegs ⟨739341, "09:00:00"⟩ ≠
      FA.generate_markdown_table oneUserState noDates noDates noWeights noNames
        noRegs ⟨739341, "09:00:01"⟩ := by
  decide
